import Mathlib

/-!
Verification of the solr-mcp-go query-planning core against its
natural-language specification.

The development shallowly embeds the Go sources:
  internal/utils/utils.go        (Choose, ChooseInt, HeadN, Prioritize)
  internal/solr/schema.go        (GetFieldCatalog, field classification, GuessFields)
  internal/solr/query_builder.go (BuildEdismaxParams, toRangeFilterQuery,
                                  BuildKNNJSON, AddFieldsForIDs, AppendFilterQuery)
  internal/server (toolSearchSmart, hybrid branch)

Go maps `map[string]any` are embedded as association lists with a JSON-like
value type `PVal`; machine integers are embedded as `Int` (no arithmetic in
the embedded code can overflow-wrap, all values are small counts/offsets);
`time.Time` is embedded as an `Int` timeline and `time.Duration` as `Int`,
with `t1.Sub(t0)` becoming `t1 - t0`; Go errors become `Except String`.
The float64 components of embedding vectors are never inspected by any code
under verification (they are passed through verbatim), so they are embedded
as opaque `Int` tokens.
-/

/-- Embeds Go `unicode.IsSpace` restricted to the ASCII/Latin-1 space
characters that can occur in the inputs under verification
(space, tab, newline, carriage return, vertical tab, form feed). -/
def goIsSpace (c : Char) : Bool :=
  c = ' ' || c = '\t' || c = '\n' || c = '\r' || c = Char.ofNat 11 || c = Char.ofNat 12

/-- Embeds Go `strings.TrimSpace`: drop leading and trailing whitespace. -/
def strTrim (s : String) : String :=
  ⟨((s.data.dropWhile goIsSpace).reverse.dropWhile goIsSpace).reverse⟩

/-- ASCII lower-casing of one character, as Go `strings.ToLower` acts on the
ASCII range.  The identifiers appearing in the sources are ASCII or Japanese
(which has no case), so this captures `strings.ToLower` on all inputs of
interest. -/
def charLower (c : Char) : Char :=
  if 65 ≤ c.toNat ∧ c.toNat ≤ 90 then Char.ofNat (c.toNat + 32) else c

/-- Embeds Go `strings.ToLower` (see `charLower`). -/
def strLower (s : String) : String := ⟨s.data.map charLower⟩

/-- Helper for `strContains`: does `pat` occur contiguously in the list? -/
def infixOfAux (pat : List Char) : List Char → Bool
  | [] => pat.isEmpty
  | c :: rest => pat.isPrefixOf (c :: rest) || infixOfAux pat rest

/-- Embeds Go `strings.Contains s pat`. -/
def strContains (s pat : String) : Bool := infixOfAux pat.data s.data

/-- One KNN clause of the structured vector-query body
(Go struct `types.KnnSpec`: field, vector, k). -/
structure KnnSpecV where
  field : String
  vector : List Int
  k : Int

/-- A JSON-like dynamic value, embedding the Go `any` values that travel
through the parameter maps of this program: strings, numbers, booleans,
JSON null, `[]string`, `[]any`, the KNN clause list, and nested maps.
JSON numbers are embedded as `Int`; no code under verification does
arithmetic on them. -/
inductive PVal where
  | str (s : String)
  | int (n : Int)
  | bl (b : Bool)
  | null
  | strList (xs : List String)
  | anyList (xs : List PVal)
  | knnList (xs : List KnnSpecV)
  | pmap (m : List (String × PVal))

/-- Association-list embedding of Go `map[string]K` (keys are unique by
construction in all maps this program builds). -/
abbrev AssocL (α : Type) := List (String × α)

/-- Map lookup: Go `m[k]` returning the value and presence. -/
def alGet {α : Type} : AssocL α → String → Option α
  | [], _ => none
  | kv :: rest, k => if kv.1 = k then some kv.2 else alGet rest k

/-- Map update: Go `m[k] = v`. -/
def alSet {α : Type} : AssocL α → String → α → AssocL α
  | [], k, v => [(k, v)]
  | kv :: rest, k, v => if kv.1 = k then (k, v) :: rest else kv :: alSet rest k v

/-- A Go `map[string]any` parameter map. -/
abbrev PMap := AssocL PVal

/-- Embeds the Go loop `for k, v := range src { dst[k] = v }`. -/
def pmMerge (dst : PMap) (src : PMap) : PMap :=
  src.foldl (fun m kv => alSet m kv.1 kv.2) dst

theorem alGet_alSet_same {α : Type} (m : AssocL α) (k : String) (v : α) :
    alGet (alSet m k v) k = some v := by
  induction m with
  | nil => simp [alSet, alGet]
  | cons kv rest ih =>
    by_cases h : kv.1 = k
    · simp [alSet, h, alGet]
    · simp [alSet, h, alGet, ih]

theorem alGet_alSet_ne {α : Type} (m : AssocL α) (k k2 : String) (v : α) (h : k2 ≠ k) :
    alGet (alSet m k v) k2 = alGet m k2 := by
  induction m with
  | nil =>
    simp only [alSet, alGet]
    rw [if_neg (fun hh => h hh.symm)]
  | cons kv rest ih =>
    by_cases hk : kv.1 = k
    · simp only [alSet, if_pos hk, alGet]
      rw [if_neg (fun hh => h hh.symm), if_neg (fun hh : kv.1 = k2 => h (hk.symm.trans hh).symm)]
    · simp only [alSet, if_neg hk, alGet]
      by_cases hk2 : kv.1 = k2
      · rw [if_pos hk2, if_pos hk2]
      · rw [if_neg hk2, if_neg hk2, ih]

theorem alGet_pmMerge_of_not_key (dst : PMap) (src : PMap) (k : String)
    (h : ∀ kv ∈ src, kv.1 ≠ k) :
    alGet (pmMerge dst src) k = alGet dst k := by
  induction src generalizing dst with
  | nil => rfl
  | cons kv rest ih =>
    have hkv : kv.1 ≠ k := h kv (List.mem_cons_self _ _)
    have hrest : ∀ kv2 ∈ rest, kv2.1 ≠ k := fun kv2 hm => h kv2 (List.mem_cons_of_mem _ hm)
    show alGet (pmMerge (alSet dst kv.1 kv.2) rest) k = alGet dst k
    rw [ih _ hrest, alGet_alSet_ne _ _ _ _ (fun hh => hkv hh.symm)]

/-- Embeds `utils.Choose`: the string if non-blank, else the fallback. -/
def Choose (s fallback : String) : String :=
  if strTrim s ≠ "" then s else fallback

/-- Embeds `utils.ChooseInt`: the int if non-zero, else the fallback. -/
def ChooseInt (i fallback : Int) : Int :=
  if i ≠ 0 then i else fallback

/-- Embeds `utils.HeadN`: the first `n` elements (clamping negative `n` to 0). -/
def HeadN {α : Type} (s : List α) (n : Int) : List α :=
  let m := if n < 0 then 0 else n
  if (s.length : Int) ≤ m then s else s.take m.toNat

/-- Embeds the inner loop of `utils.Prioritize` for one preference keyword:
state is (out, seen); a name not yet seen whose lower-cased form contains the
keyword is appended to both. -/
def prioMatchOne (p : String) : List String → (List String × List String) → (List String × List String)
  | [], st => st
  | n :: rest, st =>
    if n ∉ st.2 ∧ strContains (strLower n) p = true then
      prioMatchOne p rest (st.1 ++ [n], st.2 ++ [n])
    else
      prioMatchOne p rest st

/-- Embeds the outer loop of `utils.Prioritize` over the preference list. -/
def prioOuter (names : List String) : List String → (List String × List String) → (List String × List String)
  | [], st => st
  | p :: ps, st => prioOuter names ps (prioMatchOne p names st)

/-- Embeds `utils.Prioritize`: names matching a preference keyword (in
preference order, first match wins) followed by the remaining names. -/
def Prioritize (names prefs : List String) : List String :=
  if names.isEmpty then []
  else
    let st := prioOuter names prefs ([], [])
    st.1 ++ names.filter (fun n => decide (n ∉ st.2))

/-- One schema field (Go struct `types.SolrField`): name and declared type,
plus the indexed/stored/multiValued flags (never read by the code under
verification). -/
structure SolrField where
  name : String
  ftype : String
  indexed : Bool := true
  stored : Bool := true
  multiValued : Bool := false
  deriving DecidableEq

/-- The four classification buckets a declared type can fall into. -/
inductive FClass where
  | text
  | numeric
  | date
  | boolean
  deriving DecidableEq

/-- Embeds the switch in `GetFieldCatalog` that classifies one declared type:
substring tests on the lower-cased type name, in source order
(string/text, then int/long/float/double, then date, then bool). -/
def classOf (t : String) : Option FClass :=
  let typ := strLower t
  if strContains typ "string" || strContains typ "text" then some .text
  else if strContains typ "int" || strContains typ "long" || strContains typ "float" || strContains typ "double" then some .numeric
  else if strContains typ "date" then some .date
  else if strContains typ "bool" then some .boolean
  else none

/-- The names the classification loop appends to the bucket of class `c`,
in field order.  `namesOfClass .text fs` is `fc.Texts`, `.numeric` is
`fc.Numbers`, `.date` is `fc.Dates`, `.boolean` is `fc.Bools`. -/
def namesOfClass (c : FClass) (fs : List SolrField) : List String :=
  (fs.filter (fun f => decide (classOf f.ftype = some c))).map SolrField.name

/-- Modelled from the spec: the GuessedFields record of the full types.go is
absent from the sources (only its uses remain); one field name per role,
empty string for absence, plus the default free-text field and the ranked
top text fields. -/
structure GuessedFields where
  price : String
  date : String
  brand : String
  category : String
  inStock : String
  defaultDF : String
  textTopN : List String

/-- The four classification arrays of a catalog (fields `Texts`, `Numbers`,
`Dates`, `Bools` of the Go `types.FieldCatalog`, grouped into one record so
that `GuessFields` can consume them before the catalog is assembled). -/
structure FieldBuckets where
  texts : List String
  numbers : List String
  dates : List String
  bools : List String

/-- Embeds the per-collection catalog (Go struct `types.FieldCatalog`):
unique key, full field list, optional metadata map (field name to
description), classification buckets and classifier guesses. -/
structure FieldCatalog where
  uniqueKey : String
  all : List SolrField
  metadata : Option (AssocL String)
  buckets : FieldBuckets
  guessed : GuessedFields

/-- Embeds the closure `findBy` inside `GuessFields`: the first name whose
lower-cased form contains one of the keywords, else the empty string. -/
def findBy (names : List String) (keys : List String) : String :=
  match names with
  | [] => ""
  | n :: rest =>
    if keys.any (fun k => strContains (strLower n) k) then n
    else findBy rest keys

/-- The preference keywords used to re-order text fields in `GuessFields`. -/
def guessPrefs : List String :=
  ["title", "name", "product", "item", "商品名", "説明", "description",
   "detail", "内容", "本文", "テキスト", "text"]

/-- Embeds the two `prior` lines of `GuessFields`: the prioritized text
field list, falling back to the raw text list when prioritization returns
nothing. -/
def priorOf (texts : List String) : List String :=
  let prior0 := Prioritize texts guessPrefs
  if prior0.length = 0 ∧ 0 < texts.length then texts else prior0

/-- Embeds `solr.GuessFields`: role guesses by keyword lookup over the
classification buckets, plus the default free-text field (head of the
prioritized text list, empty if there is none) and the top-3 text fields. -/
def GuessFields (fb : FieldBuckets) : GuessedFields :=
  { price := findBy fb.numbers
      ["price", "cost", "amount", "fee", "tax", "salary", "budget", "cost",
       "金額", "価格", "値段", "料金"],
    date := findBy fb.dates
      ["date", "time", "timestamp", "created", "updated", "modified",
       "日付", "日時", "時間", "登録", "更新"],
    brand := findBy fb.texts
      ["brand", "maker", "manufacturer", "vendor", "supplier",
       "メーカー", "ブランド", "製造", "販売"],
    category := findBy fb.texts
      ["category", "type", "genre", "class", "カテゴリ", "分類", "種類", "ジャンル"],
    inStock := findBy fb.bools
      ["in_stock", "available", "stock", "在庫", "有無", "販売"],
    defaultDF :=
      match priorOf fb.texts with
      | [] => ""
      | x :: _ => x,
    textTopN := HeadN (priorOf fb.texts) 3 }

/-- Embeds `types.SchemaCache`: per-collection last-fetch instants, the
shared TTL and the per-collection catalogs.  Instants and durations live on
an `Int` timeline; an absent last-fetch entry reads as the Go zero time 0. -/
structure SchemaCache where
  lastFetch : AssocL Int
  ttl : Int
  byCol : AssocL FieldCatalog

/-- The outcomes of the three outbound schema fetches of one
`GetFieldCatalog` refresh, supplied as an oracle: the unique-key call, the
field-list call and the metadata-file call of schema.go, each either a
decoded value or a transport/decode error. -/
structure FetchEnv where
  uniqueKeyFetch : Except String String
  fieldsFetch : Except String (List SolrField)
  metadataFetch : Except String (AssocL String)

/-- The observable outcome of one `GetFieldCatalog` call: the returned
catalog or error, the cache state after the call, and how many outbound
fetch calls were issued. -/
structure CatalogCall where
  result : Except String FieldCatalog
  cache : SchemaCache
  fetchCalls : Nat

/-- The catalog assembled from a successful refresh (schema.go lines 33-76):
buckets from the classification loop, guesses from `GuessFields`. -/
def buildCatalog (uk : String) (flds : List SolrField) (md : Option (AssocL String)) : FieldCatalog :=
  let buckets : FieldBuckets :=
    { texts := namesOfClass .text flds,
      numbers := namesOfClass .numeric flds,
      dates := namesOfClass .date flds,
      bools := namesOfClass .boolean flds }
  { uniqueKey := uk, all := flds, metadata := md,
    buckets := buckets, guessed := GuessFields buckets }

/-- The metadata of a refresh: the decoded metadata document when its
fetch succeeded, absent when it failed (the only tolerated fetch error;
schema.go logs a warning and continues). -/
def mdOf (env : FetchEnv) : Option (AssocL String) :=
  match env.metadataFetch with
  | .ok m => some m
  | .error _ => none

/-- The refresh path of `GetFieldCatalog` (cache miss or stale entry):
unique-key fetch, then field-list fetch — either failure aborts with the
cache untouched — then the tolerated metadata fetch, then assembly and
cache update. -/
def fetchCatalog (env : FetchEnv) (cache : SchemaCache) (now : Int) (collection : String) : CatalogCall :=
  match env.uniqueKeyFetch with
  | .error e =>
    { result := .error ("failed to get uniqueKey from Solr: " ++ e),
      cache := cache, fetchCalls := 1 }
  | .ok uk =>
    match env.fieldsFetch with
    | .error e =>
      { result := .error ("failed to get fields from Solr: " ++ e),
        cache := cache, fetchCalls := 2 }
    | .ok flds =>
      let fc := buildCatalog uk flds (mdOf env)
      { result := .ok fc,
        cache := { cache with
          byCol := alSet cache.byCol collection fc,
          lastFetch := alSet cache.lastFetch collection now },
        fetchCalls := 3 }

/-- Embeds `solr.GetFieldCatalog`: return the cached catalog when an entry
exists and `now - lastFetch < TTL`, otherwise refresh via `fetchCatalog`. -/
def GetFieldCatalog (env : FetchEnv) (cache : SchemaCache) (now : Int) (collection : String) : CatalogCall :=
  match alGet cache.byCol collection with
  | some fc =>
    if now - ((alGet cache.lastFetch collection).getD 0) < cache.ttl then
      { result := .ok fc, cache := cache, fetchCalls := 0 }
    else
      fetchCatalog env cache now collection
  | none => fetchCatalog env cache now collection

/-- Modelled from the spec: a Range of the Plan Data Model (the types.go of
the full repository is absent from the sources); field name, a type tag
(date or number, never read by the compilers) and optional bounds. -/
structure LlmRange where
  field : String
  lo : Option String
  hi : Option String
  rtype : String := ""

/-- Modelled from the spec: the edismax block of the Plan Data Model, as the
compilers and the tests of the repository consume it (free-text query,
filters, ranges, sort, facet fields, free-form parameter map, field list). -/
structure LlmEdisMax where
  textQuery : String := ""
  filters : List String := []
  ranges : List LlmRange := []
  sort : String := ""
  facetFields : List String := []
  params : PMap := []
  fields : List String := []

/-- Modelled from the spec: the vector block of the Plan Data Model
(target field, neighbor count, optional distinct query text). -/
structure LlmVector where
  field : String := ""
  k : Int := 0
  queryText : String := ""

/-- Modelled from the spec: the Plan Data Model (mode, edismax block,
vector block). -/
structure LlmPlan where
  mode : String := ""
  edismax : LlmEdisMax := {}
  vector : LlmVector := {}

/-- Embeds `solr.toRangeFilterQuery`: a missing or empty bound renders as
an asterisk. -/
def toRangeFilterQuery (r : LlmRange) : String :=
  let lowerBound := match r.lo with
    | some s => if s ≠ "" then s else "*"
    | none => "*"
  let upperBound := match r.hi with
    | some s => if s ≠ "" then s else "*"
    | none => "*"
  r.field ++ ":[" ++ lowerBound ++ " TO " ++ upperBound ++ "]"

/-- The filter list the keyword compiler assembles: plan filters followed by
the rendered ranges (`fqs` in `BuildEdismaxParams`). -/
def edismaxFqs (plan : LlmPlan) : List String :=
  plan.edismax.filters ++ plan.edismax.ranges.map toRangeFilterQuery

/-- The first half of `solr.BuildEdismaxParams`: defaults, the plan's
free-form parameter merge, and the default-field injection when the merged
map has no df key. -/
def edismaxBase (plan : LlmPlan) (fc : FieldCatalog) (rows start : Int) : PMap :=
  let p : PMap :=
    [("defType", .str "edismax"), ("q", .str plan.edismax.textQuery),
     ("rows", .int rows), ("start", .int start), ("wt", .str "json")]
  let p := pmMerge p plan.edismax.params
  if (alGet p "df").isNone ∧ fc.guessed.defaultDF ≠ "" then
    alSet p "df" (.str fc.guessed.defaultDF)
  else p

/-- The filter-list step of `solr.BuildEdismaxParams`: the fq key is set
only when the combined filter list is non-empty. -/
def edismaxWithFq (plan : LlmPlan) (fc : FieldCatalog) (rows start : Int) : PMap :=
  let p := edismaxBase plan fc rows start
  if 0 < (edismaxFqs plan).length then alSet p "fq" (.strList (edismaxFqs plan)) else p

/-- The trailing steps of `solr.BuildEdismaxParams`: sort, facet block and
field list, each attached only when the plan specifies it. -/
def edismaxTail (plan : LlmPlan) (p : PMap) : PMap :=
  let p := if plan.edismax.sort ≠ "" then alSet p "sort" (.str plan.edismax.sort) else p
  let p :=
    if plan.edismax.facetFields ≠ [] then
      alSet (alSet (alSet (alSet p "facet" (.str "true"))
        "facet.field" (.strList plan.edismax.facetFields))
        "facet.limit" (.int 10))
        "facet.mincount" (.int 1)
    else p
  if plan.edismax.fields ≠ [] then
    alSet p "fl" (.str (String.intercalate "," plan.edismax.fields))
  else p

/-- Embeds `solr.BuildEdismaxParams` (query_builder.go lines 21-56). -/
def BuildEdismaxParams (plan : LlmPlan) (fc : FieldCatalog) (rows start : Int) : PMap :=
  edismaxTail plan (edismaxWithFq plan fc rows start)

/-- Embeds the Go comparison `v != ""` on an `any` value read from a
`map[string]any`: false only when the value is the string `""`; an absent
key (nil interface), a JSON null and every non-string value all compare
unequal to `""`. -/
def goNeqEmptyStr : Option PVal → Bool
  | some (PVal.str s) => decide (s ≠ "")
  | _ => true

/-- Embeds `fmt.Sprintf` with verb `%s` applied to an `any` value from a
parameter map.  The non-string renderings follow Go fmt's error forms
(`%!s(<nil>)` for a nil interface); no theorem below depends on the
rendering of a non-string, non-nil value. -/
def sprintfS : Option PVal → String
  | some (PVal.str s) => s
  | none => "%!s(<nil>)"
  | some PVal.null => "%!s(<nil>)"
  | some (PVal.int n) => "%!s(float64=" ++ toString n ++ ")"
  | some (PVal.bl b) => "%!s(bool=" ++ (if b then "true" else "false") ++ ")"
  | some _ => "%!s(PANIC=non-scalar)"

/-- The first part of the local-params list in `BuildKNNJSON`: `edismax`
plus the qf override when the plan's qf value compares unequal to `""`. -/
def knnQfPart (params : PMap) : List String :=
  let qf := alGet params "qf"
  if goNeqEmptyStr qf then ["edismax", "qf=" ++ sprintfS qf] else ["edismax"]

/-- The df part of the local-params list in `BuildKNNJSON`: the plan's df
value is replaced by the classifier guess whenever it compares unequal to
`""` and the guess is non-empty, and a df local is attached whenever the
resulting value compares unequal to `""`. -/
def knnDfPart (params : PMap) (guess : String) : List String :=
  let df := alGet params "df"
  let df := if goNeqEmptyStr df && guess != "" then some (PVal.str guess) else df
  if goNeqEmptyStr df then ["df=" ++ sprintfS df] else []

/-- The full local-params list of the relevance sub-query in `BuildKNNJSON`. -/
def knnLocals (params : PMap) (guess : String) : List String :=
  knnQfPart params ++ knnDfPart params guess

/-- The relevance sub-query string of `BuildKNNJSON`:
`{!<locals>}<text query>`. -/
def mkKnnQuery (plan : LlmPlan) (fc : FieldCatalog) : String :=
  "\x7b!" ++ String.intercalate " " (knnLocals plan.edismax.params fc.guessed.defaultDF)
    ++ "\x7d" ++ plan.edismax.textQuery

/-- Modelled from the spec: the KnnJSON struct of the full types.go is
absent from the sources; its JSON shape is pinned by the repository's tests
(keys filter/knn/limit/offset/query/sort/fields/facet/params) and by the
spec's rule that an unset optional member leaves the body without that
key.  Optional members are `Option`; `none` means the key is omitted. -/
structure KnnJSON where
  filter : List String
  knn : List KnnSpecV
  limit : Int
  offset : Int
  query : Option String
  sort : Option String
  fields : Option (List String)
  facet : Option PMap
  params : Option PMap

/-- The JSON facet block of `BuildKNNJSON`: one `facet_<field>` terms
entry per facet field, with limit 10 and mincount 1. -/
def facetBlock (ffs : List String) : PMap :=
  ffs.map (fun f =>
    ("facet_" ++ f,
      PVal.pmap [("type", .str "terms"), ("field", .str f),
                 ("limit", .int 10), ("mincount", .int 1)]))

/-- Embeds `solr.BuildKNNJSON` (query_builder.go lines 77-139).  Each Go
`if` assigns exactly one member of the body, so the sequential assignments
are written as one record: the KNN clause always carries the plan's vector
field, the supplied embedding and `ChooseInt k 100`; the relevance
sub-query is attached only when the trimmed text query is non-empty and the
raw text query differs from `*:*`. -/
def BuildKNNJSON (plan : LlmPlan) (fc : FieldCatalog) (embedding : List Int) (rows start : Int) : KnnJSON :=
  { filter := plan.edismax.filters ++ plan.edismax.ranges.map toRangeFilterQuery,
    knn := [{ field := plan.vector.field, vector := embedding,
              k := ChooseInt plan.vector.k 100 }],
    limit := rows,
    offset := start,
    query :=
      if strTrim plan.edismax.textQuery ≠ "" ∧ plan.edismax.textQuery ≠ "*:*" then
        some (mkKnnQuery plan fc)
      else none,
    sort := if plan.edismax.sort ≠ "" then some plan.edismax.sort else none,
    fields := if plan.edismax.fields ≠ [] then some plan.edismax.fields else none,
    facet := if plan.edismax.facetFields ≠ [] then some (facetBlock plan.edismax.facetFields) else none,
    params := if 0 < plan.edismax.params.length then some plan.edismax.params else none }

/-- The `map[string]any` view of a marshalled `KnnJSON` body (the
`json.Marshal` / `json.Unmarshal` round trip at the end of `BuildKNNJSON`):
an optional member contributes its key only when set. -/
def knnJSONToMap (b : KnnJSON) : PMap :=
  [("filter", PVal.strList b.filter), ("knn", PVal.knnList b.knn),
   ("limit", PVal.int b.limit), ("offset", PVal.int b.offset)]
  ++ (match b.query with | some q => [("query", PVal.str q)] | none => [])
  ++ (match b.sort with | some s => [("sort", PVal.str s)] | none => [])
  ++ (match b.fields with | some fs => [("fields", PVal.strList fs)] | none => [])
  ++ (match b.facet with | some m => [("facet", PVal.pmap m)] | none => [])
  ++ (match b.params with | some m => [("params", PVal.pmap m)] | none => [])

/-- Embeds `solr.AddFieldsForIDs` (query_builder.go lines 168-176): when
the id field is non-empty and the body already has a `fields` key, replace
its value by the singleton id-field list; otherwise leave the body alone. -/
def AddFieldsForIDs (body : PMap) (idField : String) : PMap :=
  if idField = "" then body
  else
    match alGet body "fields" with
    | none => body
    | some _ => alSet body "fields" (PVal.strList [idField])

/-- Embeds `solr.AppendFilterQuery` (query_builder.go lines 199-210): a Go
type switch on the current fq value.  An absent key and a JSON null both
present the nil interface and hit `case nil`; a dynamic type with no case
(number, boolean, nested map, ...) falls through and leaves the map
unchanged. -/
def AppendFilterQuery (params : PMap) (fq : String) : PMap :=
  match alGet params "fq" with
  | none => alSet params "fq" (PVal.strList [fq])
  | some PVal.null => alSet params "fq" (PVal.strList [fq])
  | some (PVal.str cur) => alSet params "fq" (PVal.strList [cur, fq])
  | some (PVal.strList cur) => alSet params "fq" (PVal.strList (cur ++ [fq]))
  | some (PVal.anyList cur) => alSet params "fq" (PVal.anyList (cur ++ [PVal.str fq]))
  | some _ => params

/-- The candidate-phase body of the hybrid branch of `toolSearchSmart`:
`BuildKNNJSON` invoked with rows `ChooseInt plan.Vector.K 200` and start 0,
then `AddFieldsForIDs` with the catalog's unique key. -/
def hybridCandidateBody (plan : LlmPlan) (fc : FieldCatalog) (embedding : List Int) : PMap :=
  AddFieldsForIDs
    (knnJSONToMap (BuildKNNJSON plan fc embedding (ChooseInt plan.vector.k 200) 0))
    fc.uniqueKey

/-- The merge phase of the hybrid branch of `toolSearchSmart`, given the
identifiers extracted from the candidate response: the select parameter map
actually executed and the execution note of the output. -/
def hybridMergePhase (plan : LlmPlan) (fc : FieldCatalog) (rows start : Int) (ids : List String) : PMap × String :=
  if ids.length = 0 then
    (BuildEdismaxParams plan fc rows start,
     "Hybrid search: Vector part returned 0 results, so returned only keyword search results.")
  else
    let selectParams := BuildEdismaxParams plan fc rows start
    let idFilterQuery := fc.uniqueKey ++ ":(" ++ String.intercalate " OR " ids ++ ")"
    (AppendFilterQuery selectParams idFilterQuery,
     "Hybrid search: Vector part returned " ++ toString ids.length
       ++ " results, combined with keyword search.")

/-- The observable data of one hybrid `toolSearchSmart` request (candidate
phase successful, `ids` extracted from its response): the candidate body
posted in phase 1, the select parameters executed in phase 2 and the
execution note returned to the caller. -/
structure HybridResult where
  candidateBody : PMap
  selectParams : PMap
  executionNotes : String

/-- The hybrid branch of `toolSearchSmart` (server tools source, lines
472-520), as a function of the request plan, catalog, embedding, paging and
the identifiers extracted from the successful candidate response. -/
def toolSearchSmartHybrid (plan : LlmPlan) (fc : FieldCatalog) (embedding : List Int)
    (rows start : Int) (ids : List String) : HybridResult :=
  let merged := hybridMergePhase plan fc rows start ids
  { candidateBody := hybridCandidateBody plan fc embedding,
    selectParams := merged.1,
    executionNotes := merged.2 }

/-- Frame lemma: the trailing steps of the keyword compiler touch only the
sort, facet and field-list keys. -/
theorem edismaxTail_get_ne (plan : LlmPlan) (p : PMap) (k : String)
    (h1 : k ≠ "sort") (h2 : k ≠ "facet") (h3 : k ≠ "facet.field")
    (h4 : k ≠ "facet.limit") (h5 : k ≠ "facet.mincount") (h6 : k ≠ "fl") :
    alGet (edismaxTail plan p) k = alGet p k := by
  simp only [edismaxTail]
  split <;> split <;> split <;>
    simp only [alGet_alSet_ne _ _ _ _ h1, alGet_alSet_ne _ _ _ _ h2,
      alGet_alSet_ne _ _ _ _ h3, alGet_alSet_ne _ _ _ _ h4,
      alGet_alSet_ne _ _ _ _ h5, alGet_alSet_ne _ _ _ _ h6]

/-- When the plan's free-form parameter map carries no fq key, neither does
the first half of the keyword compiler's output. -/
theorem edismaxBase_get_fq (plan : LlmPlan) (fc : FieldCatalog) (rows start : Int)
    (h : ∀ kv ∈ plan.edismax.params, kv.1 ≠ "fq") :
    alGet (edismaxBase plan fc rows start) "fq" = none := by
  simp only [edismaxBase]
  split
  · rw [alGet_alSet_ne _ _ _ _ (by decide), alGet_pmMerge_of_not_key _ _ _ h]
    rfl
  · rw [alGet_pmMerge_of_not_key _ _ _ h]
    rfl

/-- Frame lemma: `AppendFilterQuery` touches only the fq key. -/
theorem appendFilterQuery_get_ne (params : PMap) (fq : String) (k : String) (h : k ≠ "fq") :
    alGet (AppendFilterQuery params fq) k = alGet params k := by
  unfold AppendFilterQuery
  split <;> first
    | rfl
    | rw [alGet_alSet_ne _ _ _ _ h]

/-- Frame lemma: `AddFieldsForIDs` touches only the fields key. -/
theorem addFieldsForIDs_get_ne (body : PMap) (idField : String) (k : String) (h : k ≠ "fields") :
    alGet (AddFieldsForIDs body idField) k = alGet body k := by
  unfold AddFieldsForIDs
  split
  · rfl
  · split
    · rfl
    · rw [alGet_alSet_ne _ _ _ _ h]

/-- A concrete catalog used by witnesses and counterexamples: the
`techproducts`-style collection of the spec's end-to-end scenario. -/
def fcT : FieldCatalog :=
  buildCatalog "id"
    [{ name := "price_i", ftype := "pint" },
     { name := "release_dt", ftype := "pdate" },
     { name := "brand_s", ftype := "string" },
     { name := "title_txt", ftype := "text_general" }]
    none

/-- C6 (amended): for every plan whose free-form parameter map does not
itself supply an fq key, the keyword compiler's output has no fq key when
the plan's filter and range lists are both empty; whenever the combined
filter list is non-empty the fq key holds the plan's filters followed by
the rendered ranges; and a range renders as `field:[lower TO upper]` with
an asterisk for each missing or empty bound. -/
theorem buildEdismax_filter_key (plan : LlmPlan) (fc : FieldCatalog) (rows start : Int) :
    (plan.edismax.filters = [] → plan.edismax.ranges = [] →
      (∀ kv ∈ plan.edismax.params, kv.1 ≠ "fq") →
      alGet (BuildEdismaxParams plan fc rows start) "fq" = none)
    ∧ (edismaxFqs plan ≠ [] →
      alGet (BuildEdismaxParams plan fc rows start) "fq"
        = some (PVal.strList (plan.edismax.filters ++ plan.edismax.ranges.map toRangeFilterQuery)))
    ∧ (∀ f lo hi t, lo ≠ "" → hi ≠ "" →
      toRangeFilterQuery ⟨f, some lo, some hi, t⟩ = f ++ ":[" ++ lo ++ " TO " ++ hi ++ "]")
    ∧ (∀ f lo t, lo ≠ "" →
      toRangeFilterQuery ⟨f, some lo, none, t⟩ = f ++ ":[" ++ lo ++ " TO " ++ "*" ++ "]")
    ∧ (∀ f t, toRangeFilterQuery ⟨f, none, none, t⟩ = f ++ ":[" ++ "*" ++ " TO " ++ "*" ++ "]")
    ∧ (∀ f t, toRangeFilterQuery ⟨f, some "", some "", t⟩ = f ++ ":[" ++ "*" ++ " TO " ++ "*" ++ "]") := by
  refine ⟨?_, ?_, ?_, ?_, ?_, ?_⟩
  · intro hfil hran hpar
    unfold BuildEdismaxParams
    rw [edismaxTail_get_ne _ _ _ (by decide) (by decide) (by decide) (by decide) (by decide) (by decide)]
    unfold edismaxWithFq
    rw [if_neg (by simp [edismaxFqs, hfil, hran])]
    exact edismaxBase_get_fq plan fc rows start hpar
  · intro hfqs
    unfold BuildEdismaxParams
    rw [edismaxTail_get_ne _ _ _ (by decide) (by decide) (by decide) (by decide) (by decide) (by decide)]
    unfold edismaxWithFq
    rw [if_pos (List.length_pos.mpr hfqs)]
    exact alGet_alSet_same _ _ _
  · intro f lo hi t hlo hhi
    simp only [toRangeFilterQuery, if_pos hlo, if_pos hhi]
  · intro f lo t hlo
    simp only [toRangeFilterQuery, if_pos hlo]
  · intro f t
    simp only [toRangeFilterQuery]
  · intro f t
    simp only [toRangeFilterQuery, if_neg (by simp : ¬ ("" : String) ≠ "")]

/-- A keyword-mode plan with one filter and one price range, used to
exercise the non-empty branch of the fq characterization. -/
def planFqW : LlmPlan :=
  { mode := "keyword",
    edismax := { textQuery := "gpu", filters := ["cat:electronics"],
                 ranges := [{ field := "price_i", lo := some "100", hi := some "200", rtype := "number" }] } }

/-- A keyword-mode plan with no filters, no ranges and no free-form
parameters. -/
def planPlainW : LlmPlan :=
  { mode := "keyword", edismax := { textQuery := "gpu" } }

/-- Witness for the fq characterization at concrete plans. -/
theorem buildEdismax_filter_key_witness :
    alGet (BuildEdismaxParams planFqW fcT 10 0) "fq"
      = some (PVal.strList (planFqW.edismax.filters ++ planFqW.edismax.ranges.map toRangeFilterQuery))
    ∧ alGet (BuildEdismaxParams planPlainW fcT 10 0) "fq" = none
    ∧ toRangeFilterQuery ⟨"price_i", some "100", some "200", "number"⟩ = "price_i" ++ ":[" ++ "100" ++ " TO " ++ "200" ++ "]" :=
  ⟨(buildEdismax_filter_key planFqW fcT 10 0).2.1 (by decide),
   (buildEdismax_filter_key planPlainW fcT 10 0).1 rfl rfl (by intro kv h; cases h),
   (buildEdismax_filter_key planFqW fcT 10 0).2.2.1 "price_i" "100" "200" "number" (by decide) (by decide)⟩

/-- A plan whose free-form parameter map itself supplies an fq value while
the filter and range lists are empty. -/
def planC6x : LlmPlan :=
  { mode := "keyword",
    edismax := { textQuery := "gpu", params := [("fq", .str "cat:a")] } }

/-- Counterexample to C6 as stated: this plan has an empty filter list and
an empty range list, yet the keyword compiler's output map does carry a
filter key — the plan's free-form parameter map supplied it and the merge
loop copies every free-form key into the output. -/
theorem buildEdismax_filter_key_counterexample :
    planC6x.edismax.filters = [] ∧ planC6x.edismax.ranges = []
    ∧ alGet (BuildEdismaxParams planC6x fcT 10 0) "fq" = some (PVal.str "cat:a") :=
  ⟨rfl, rfl, rfl⟩

/-- C7: the vector compiler's body carries a relevance sub-query exactly
when the plan's free-text query is non-empty after trimming and differs
from the raw match-all token `*:*`; when attached, the sub-query is the
local-params clause followed by the plan's free-text query verbatim. -/
theorem knn_relevance_subquery (plan : LlmPlan) (fc : FieldCatalog) (emb : List Int) (rows start : Int) :
    ((BuildKNNJSON plan fc emb rows start).query ≠ none ↔
      (strTrim plan.edismax.textQuery ≠ "" ∧ plan.edismax.textQuery ≠ "*:*"))
    ∧ (∀ s, (BuildKNNJSON plan fc emb rows start).query = some s →
      s = "\x7b!" ++ String.intercalate " " (knnLocals plan.edismax.params fc.guessed.defaultDF)
        ++ "\x7d" ++ plan.edismax.textQuery) := by
  constructor
  · by_cases hc : strTrim plan.edismax.textQuery ≠ "" ∧ plan.edismax.textQuery ≠ "*:*"
    · simp [BuildKNNJSON, hc]
    · simp [BuildKNNJSON, hc]
  · intro s hs
    by_cases hc : strTrim plan.edismax.textQuery ≠ "" ∧ plan.edismax.textQuery ≠ "*:*"
    · simp only [BuildKNNJSON, if_pos hc, Option.some.injEq] at hs
      rw [← hs]
      rfl
    · simp only [BuildKNNJSON, if_neg hc] at hs
      cases hs

/-- A hybrid plan with a distinct text query and explicit qf and df
free-form parameters. -/
def planDfW : LlmPlan :=
  { mode := "hybrid",
    edismax := { textQuery := "gpu",
                 params := [("qf", .str "text_en"), ("df", .str "desc_t")] },
    vector := { field := "v", k := 0 } }

/-- Witness for the relevance sub-query rule at a concrete plan. -/
theorem knn_relevance_subquery_witness :
    (BuildKNNJSON planDfW fcT [7] 10 0).query ≠ none :=
  (knn_relevance_subquery planDfW fcT [7] 10 0).1.mpr ⟨by decide, by decide⟩

/-- The df part of the local-params list when the plan leaves df unset and
the classifier guess is non-empty: the guess is attached. -/
theorem knnDfPart_of_unset (params : PMap) (guess : String) (hg : guess ≠ "")
    (h : alGet params "df" = none) :
    knnDfPart params guess = ["df=" ++ guess] := by
  simp only [knnDfPart, h]
  rw [if_pos (by simp [goNeqEmptyStr, bne_iff_ne, hg])]
  simp [goNeqEmptyStr, sprintfS, hg]

/-- The df part of the local-params list when the plan explicitly sets df
to a non-empty string and the classifier guess is non-empty: the plan's
value is discarded and the guess is attached. -/
theorem knnDfPart_of_set (params : PMap) (guess s : String) (hg : guess ≠ "") (hs : s ≠ "")
    (h : alGet params "df" = some (PVal.str s)) :
    knnDfPart params guess = ["df=" ++ guess] := by
  simp only [knnDfPart, h]
  rw [if_pos (by simp [goNeqEmptyStr, bne_iff_ne, hg, hs])]
  simp [goNeqEmptyStr, sprintfS, hg, hs]

/-- The df part of the local-params list when the plan sets df to the empty
string: no df local is attached at all. -/
theorem knnDfPart_of_empty (params : PMap) (guess : String)
    (h : alGet params "df" = some (PVal.str "")) :
    knnDfPart params guess = [] := by
  simp only [knnDfPart, h]
  rw [if_neg (by simp [goNeqEmptyStr])]

/-- C3 (amended): when the relevance sub-query is attached and the
classifier's guess is non-empty, the default-field local parameter is set
to the guess both when the plan leaves df unset and when the plan sets df
to a non-empty string (an explicitly set default-field is replaced, not
used as given); a df explicitly set to the empty string suppresses the
default-field local entirely. -/
theorem knn_df_override (plan : LlmPlan) (fc : FieldCatalog) (emb : List Int) (rows start : Int)
    (hq1 : strTrim plan.edismax.textQuery ≠ "") (hq2 : plan.edismax.textQuery ≠ "*:*")
    (hg : fc.guessed.defaultDF ≠ "") :
    (alGet plan.edismax.params "df" = none →
      (BuildKNNJSON plan fc emb rows start).query
        = some ("\x7b!" ++ String.intercalate " "
            (knnQfPart plan.edismax.params ++ ["df=" ++ fc.guessed.defaultDF])
            ++ "\x7d" ++ plan.edismax.textQuery))
    ∧ (∀ s, s ≠ "" → alGet plan.edismax.params "df" = some (PVal.str s) →
      (BuildKNNJSON plan fc emb rows start).query
        = some ("\x7b!" ++ String.intercalate " "
            (knnQfPart plan.edismax.params ++ ["df=" ++ fc.guessed.defaultDF])
            ++ "\x7d" ++ plan.edismax.textQuery))
    ∧ (alGet plan.edismax.params "df" = some (PVal.str "") →
      (BuildKNNJSON plan fc emb rows start).query
        = some ("\x7b!" ++ String.intercalate " " (knnQfPart plan.edismax.params)
            ++ "\x7d" ++ plan.edismax.textQuery)) := by
  have hquery : (BuildKNNJSON plan fc emb rows start).query = some (mkKnnQuery plan fc) := by
    simp only [BuildKNNJSON, if_pos (And.intro hq1 hq2)]
  refine ⟨?_, ?_, ?_⟩
  · intro h
    rw [hquery]
    unfold mkKnnQuery knnLocals
    rw [knnDfPart_of_unset _ _ hg h]
  · intro s hs h
    rw [hquery]
    unfold mkKnnQuery knnLocals
    rw [knnDfPart_of_set _ _ s hg hs h]
  · intro h
    rw [hquery]
    unfold mkKnnQuery knnLocals
    rw [knnDfPart_of_empty _ _ h, List.append_nil]

/-- Witness for the df override at a concrete plan with an explicitly set
df. -/
theorem knn_df_override_witness :
    (BuildKNNJSON planDfW fcT [7] 10 0).query
      = some ("\x7b!" ++ String.intercalate " "
          (knnQfPart planDfW.edismax.params ++ ["df=" ++ fcT.guessed.defaultDF])
          ++ "\x7d" ++ planDfW.edismax.textQuery) :=
  (knn_df_override planDfW fcT [7] 10 0 (by decide) (by decide) (by decide)).2.1
    "desc_t" (by decide) rfl

/-- Counterexample to C3 as stated: `planDfW` explicitly sets the df
parameter to `desc_t`, and the catalog's guessed default free-text field is
`title_txt`; the compiled relevance sub-query carries `df=title_txt` — the
explicitly set default-field is replaced by the guess, not used as given. -/
theorem knn_df_override_counterexample :
    alGet planDfW.edismax.params "df" = some (PVal.str "desc_t")
    ∧ fcT.guessed.defaultDF = "title_txt"
    ∧ (BuildKNNJSON planDfW fcT [7] 10 0).query
        = some "\x7b!edismax qf=text_en df=title_txt\x7dgpu" :=
  ⟨rfl, rfl, rfl⟩

/-- C8: for a non-empty id field, the candidate-phase post-processing step
replaces an existing field list by the singleton id field, leaves a body
without a field list untouched, and modifies no other key. -/
theorem addFieldsForIDs_spec (body : PMap) (idField : String) (h : idField ≠ "") :
    ((alGet body "fields").isSome = true →
      alGet (AddFieldsForIDs body idField) "fields" = some (PVal.strList [idField]))
    ∧ (alGet body "fields" = none → AddFieldsForIDs body idField = body)
    ∧ (∀ k, k ≠ "fields" → alGet (AddFieldsForIDs body idField) k = alGet body k) := by
  refine ⟨?_, ?_, fun k hk => addFieldsForIDs_get_ne body idField k hk⟩
  · intro hsome
    unfold AddFieldsForIDs
    rw [if_neg h]
    cases hf : alGet body "fields" with
    | none => rw [hf] at hsome; cases hsome
    | some v => simp only [hf]; exact alGet_alSet_same _ _ _
  · intro hnone
    unfold AddFieldsForIDs
    rw [if_neg h]
    simp only [hnone]

/-- A concrete candidate body with an existing field list. -/
def bodyFieldsW : PMap :=
  [("query", PVal.str "*:*"), ("fields", PVal.strList ["name", "price"])]

/-- Witness for the post-processing step at a concrete body. -/
theorem addFieldsForIDs_spec_witness :
    alGet (AddFieldsForIDs bodyFieldsW "id") "fields" = some (PVal.strList ["id"])
    ∧ AddFieldsForIDs [("query", PVal.str "*:*")] "id" = [("query", PVal.str "*:*")] :=
  ⟨(addFieldsForIDs_spec bodyFieldsW "id" (by decide)).1 rfl,
   (addFieldsForIDs_spec [("query", PVal.str "*:*")] "id" (by decide)).2.1 rfl⟩

/-- C1 (amended): for every hybrid request with a successful candidate
phase, zero extracted identifiers fall back to the plain keyword parameter
map with the keyword-only note; with N ≥ 1 identifiers the merge phase
appends the identifier OR-disjunction through `AppendFilterQuery`, which
adds exactly one filter whenever the pre-existing fq value is absent, null,
a string, a string list or a generic list — while an fq value of any other
dynamic kind (number, boolean, ...) supplied through the plan's free-form
parameter map leaves the map unchanged — touches no other key, and the
note reports the candidate count N. -/
theorem hybrid_merge_phase_spec (plan : LlmPlan) (fc : FieldCatalog) (emb : List Int)
    (rows start : Int) (ids : List String) :
    (ids = [] →
      (toolSearchSmartHybrid plan fc emb rows start ids).selectParams
          = BuildEdismaxParams plan fc rows start
      ∧ (toolSearchSmartHybrid plan fc emb rows start ids).executionNotes
          = "Hybrid search: Vector part returned 0 results, so returned only keyword search results.")
    ∧ (ids ≠ [] →
      (toolSearchSmartHybrid plan fc emb rows start ids).selectParams
          = AppendFilterQuery (BuildEdismaxParams plan fc rows start)
              (fc.uniqueKey ++ ":(" ++ String.intercalate " OR " ids ++ ")")
      ∧ (toolSearchSmartHybrid plan fc emb rows start ids).executionNotes
          = "Hybrid search: Vector part returned " ++ toString ids.length
              ++ " results, combined with keyword search."
      ∧ (∀ params fq,
          (∀ k, k ≠ "fq" → alGet (AppendFilterQuery params fq) k = alGet params k)
          ∧ (alGet params "fq" = none →
              alGet (AppendFilterQuery params fq) "fq" = some (PVal.strList [fq]))
          ∧ (alGet params "fq" = some PVal.null →
              alGet (AppendFilterQuery params fq) "fq" = some (PVal.strList [fq]))
          ∧ (∀ s, alGet params "fq" = some (PVal.str s) →
              alGet (AppendFilterQuery params fq) "fq" = some (PVal.strList [s, fq]))
          ∧ (∀ xs, alGet params "fq" = some (PVal.strList xs) →
              alGet (AppendFilterQuery params fq) "fq" = some (PVal.strList (xs ++ [fq])))
          ∧ (∀ xs, alGet params "fq" = some (PVal.anyList xs) →
              alGet (AppendFilterQuery params fq) "fq" = some (PVal.anyList (xs ++ [PVal.str fq])))
          ∧ (∀ n, alGet params "fq" = some (PVal.int n) → AppendFilterQuery params fq = params)
          ∧ (∀ b, alGet params "fq" = some (PVal.bl b) → AppendFilterQuery params fq = params))) := by
  constructor
  · intro hids
    subst hids
    exact ⟨rfl, rfl⟩
  · intro hids
    have hlen : ¬ ids.length = 0 := fun hz => hids (List.length_eq_zero.mp hz)
    refine ⟨?_, ?_, ?_⟩
    · show (hybridMergePhase plan fc rows start ids).1 = _
      simp only [hybridMergePhase, if_neg hlen]
    · show (hybridMergePhase plan fc rows start ids).2 = _
      simp only [hybridMergePhase, if_neg hlen]
    · intro params fq
      refine ⟨fun k hk => appendFilterQuery_get_ne params fq k hk, ?_, ?_, ?_, ?_, ?_, ?_, ?_⟩
      · intro h
        unfold AppendFilterQuery
        rw [h]
        exact alGet_alSet_same _ _ _
      · intro h
        unfold AppendFilterQuery
        rw [h]
        exact alGet_alSet_same _ _ _
      · intro s h
        unfold AppendFilterQuery
        rw [h]
        exact alGet_alSet_same _ _ _
      · intro xs h
        unfold AppendFilterQuery
        rw [h]
        exact alGet_alSet_same _ _ _
      · intro xs h
        unfold AppendFilterQuery
        rw [h]
        exact alGet_alSet_same _ _ _
      · intro n h
        unfold AppendFilterQuery
        rw [h]
      · intro b h
        unfold AppendFilterQuery
        rw [h]

/-- Witness for the merge phase: concrete keyword-only fallback and a
concrete two-candidate merge. -/
theorem hybrid_merge_phase_spec_witness :
    (toolSearchSmartHybrid planPlainW fcT [7] 10 0 []).executionNotes
      = "Hybrid search: Vector part returned 0 results, so returned only keyword search results."
    ∧ (toolSearchSmartHybrid planPlainW fcT [7] 10 0 ["x", "y"]).selectParams
      = AppendFilterQuery (BuildEdismaxParams planPlainW fcT 10 0)
          (fcT.uniqueKey ++ ":(" ++ String.intercalate " OR " ["x", "y"] ++ ")")
    ∧ (toolSearchSmartHybrid planPlainW fcT [7] 10 0 ["x", "y"]).executionNotes
      = "Hybrid search: Vector part returned " ++ toString (["x", "y"].length)
          ++ " results, combined with keyword search." :=
  ⟨((hybrid_merge_phase_spec planPlainW fcT [7] 10 0 []).1 rfl).2,
   ((hybrid_merge_phase_spec planPlainW fcT [7] 10 0 ["x", "y"]).2 (by decide)).1,
   ((hybrid_merge_phase_spec planPlainW fcT [7] 10 0 ["x", "y"]).2 (by decide)).2.1⟩

/-- A hybrid plan whose free-form parameter map supplies a boolean fq
value. -/
def planFqBool : LlmPlan :=
  { mode := "hybrid",
    edismax := { textQuery := "gpu", params := [("fq", .bl true)] },
    vector := { field := "v", k := 5 } }

/-- Counterexample to C1 as stated: two identifiers are extracted (the note
reports 2), yet the executed parameter map is identical to the plain
keyword compilation — no identifier-disjunction filter was added, because
the plan's free-form fq value has boolean dynamic type and the type switch
in `AppendFilterQuery` has no case for it. -/
theorem hybrid_merge_phase_counterexample :
    (toolSearchSmartHybrid planFqBool fcT [7] 10 0 ["a", "b"]).selectParams
        = BuildEdismaxParams planFqBool fcT 10 0
    ∧ alGet (toolSearchSmartHybrid planFqBool fcT [7] 10 0 ["a", "b"]).selectParams "fq"
        = some (PVal.bl true)
    ∧ (toolSearchSmartHybrid planFqBool fcT [7] 10 0 ["a", "b"]).executionNotes
        = "Hybrid search: Vector part returned 2 results, combined with keyword search." :=
  ⟨rfl, rfl, rfl⟩

/-- C2 (amended): the hybrid candidate phase is independent of the
requested pagination — the candidate body is literally the same map for any
two rows/start pairs — its KNN neighbor count is the plan's neighbor count
when non-zero and the fixed default 100 otherwise, its limit is the plan's
neighbor count when non-zero and the fixed constant 200 otherwise, and its
offset is zero. -/
theorem hybrid_candidate_spec (plan : LlmPlan) (fc : FieldCatalog) (emb : List Int)
    (rows start rows2 start2 : Int) (ids ids2 : List String) :
    (toolSearchSmartHybrid plan fc emb rows start ids).candidateBody
        = (toolSearchSmartHybrid plan fc emb rows2 start2 ids2).candidateBody
    ∧ alGet (toolSearchSmartHybrid plan fc emb rows start ids).candidateBody "knn"
        = some (PVal.knnList [{ field := plan.vector.field, vector := emb,
                                k := ChooseInt plan.vector.k 100 }])
    ∧ alGet (toolSearchSmartHybrid plan fc emb rows start ids).candidateBody "offset"
        = some (PVal.int 0)
    ∧ alGet (toolSearchSmartHybrid plan fc emb rows start ids).candidateBody "limit"
        = some (PVal.int (ChooseInt plan.vector.k 200)) := by
  refine ⟨rfl, ?_, ?_, ?_⟩
  · show alGet (hybridCandidateBody plan fc emb) "knn" = _
    unfold hybridCandidateBody
    rw [addFieldsForIDs_get_ne _ _ _ (by decide)]
    rfl
  · show alGet (hybridCandidateBody plan fc emb) "offset" = _
    unfold hybridCandidateBody
    rw [addFieldsForIDs_get_ne _ _ _ (by decide)]
    rfl
  · show alGet (hybridCandidateBody plan fc emb) "limit" = _
    unfold hybridCandidateBody
    rw [addFieldsForIDs_get_ne _ _ _ (by decide)]
    rfl

/-- A hybrid plan whose vector block leaves the neighbor count zero. -/
def planK0 : LlmPlan :=
  { mode := "hybrid",
    edismax := { textQuery := "gpu" },
    vector := { field := "v", k := 0 } }

/-- Counterexample to C2 as stated: there is no fixed multiplier c such
that the candidate phase's KNN neighbor count equals c times the requested
row count — for the plan with neighbor count 0 the candidate body carries
k = 100 whether the request asks for 20 rows or 7 rows, and no fixed c
satisfies both 100 = c * 20 and 100 = c * 7. -/
theorem hybrid_candidate_counterexample :
    ¬ ∃ c : Int, ∀ (plan : LlmPlan) (fc : FieldCatalog) (emb : List Int)
        (rows start : Int) (ids : List String),
        alGet (toolSearchSmartHybrid plan fc emb rows start ids).candidateBody "knn"
            = some (PVal.knnList [{ field := plan.vector.field, vector := emb, k := c * rows }])
        ∧ alGet (toolSearchSmartHybrid plan fc emb rows start ids).candidateBody "offset"
            = some (PVal.int 0) := by
  rintro ⟨c, h⟩
  have h20 := (h planK0 fcT [7] 20 0 []).1
  have h7 := (h planK0 fcT [7] 7 0 []).1
  have e20 : alGet (toolSearchSmartHybrid planK0 fcT [7] 20 0 []).candidateBody "knn"
      = some (PVal.knnList [{ field := "v", vector := [7], k := 100 }]) := rfl
  have e7 : alGet (toolSearchSmartHybrid planK0 fcT [7] 7 0 []).candidateBody "knn"
      = some (PVal.knnList [{ field := "v", vector := [7], k := 100 }]) := rfl
  rw [e20] at h20
  rw [e7] at h7
  simp only [Option.some.injEq, PVal.knnList.injEq, List.cons.injEq, and_true,
    KnnSpecV.mk.injEq, true_and] at h20 h7
  omega

/-- A cache-hit call: an entry within TTL is returned as-is, with the cache
untouched and zero fetch calls. -/
theorem getFieldCatalog_hit (env : FetchEnv) (cache : SchemaCache) (now : Int)
    (col : String) (fc : FieldCatalog) (hc : alGet cache.byCol col = some fc)
    (ht : now - ((alGet cache.lastFetch col).getD 0) < cache.ttl) :
    GetFieldCatalog env cache now col = ⟨.ok fc, cache, 0⟩ := by
  unfold GetFieldCatalog
  rw [hc]
  simp only [if_pos ht]

/-- A call on a cache miss or a stale entry takes the refresh path. -/
theorem getFieldCatalog_miss (env : FetchEnv) (cache : SchemaCache) (now : Int) (col : String)
    (hmiss : alGet cache.byCol col = none
      ∨ ¬ now - ((alGet cache.lastFetch col).getD 0) < cache.ttl) :
    GetFieldCatalog env cache now col = fetchCatalog env cache now col := by
  unfold GetFieldCatalog
  cases hc : alGet cache.byCol col with
  | none => rfl
  | some fc =>
    rcases hmiss with hmiss | hmiss
    · rw [hc] at hmiss; cases hmiss
    · simp only [if_neg hmiss]

/-- A refresh whose unique-key and field-list fetches both succeed returns
the assembled catalog and stores it with the current instant. -/
theorem fetchCatalog_ok (env : FetchEnv) (cache : SchemaCache) (now : Int) (col : String)
    (uk : String) (flds : List SolrField)
    (huk : env.uniqueKeyFetch = .ok uk) (hfl : env.fieldsFetch = .ok flds) :
    fetchCatalog env cache now col
      = ⟨.ok (buildCatalog uk flds (mdOf env)),
         { cache with byCol := alSet cache.byCol col (buildCatalog uk flds (mdOf env)),
                      lastFetch := alSet cache.lastFetch col now }, 3⟩ := by
  unfold fetchCatalog
  rw [huk, hfl]

/-- Every refresh issues at least one outbound fetch call. -/
theorem fetchCatalog_calls_pos (env : FetchEnv) (cache : SchemaCache) (now : Int) (col : String) :
    1 ≤ (fetchCatalog env cache now col).fetchCalls := by
  rcases hu : env.uniqueKeyFetch with e | uk
  · simp [fetchCatalog, hu]
  · rcases hf : env.fieldsFetch with e | flds
    · simp [fetchCatalog, hu, hf]
    · simp [fetchCatalog, hu, hf]

/-- C4: after a successful fetch completed at `t0`, a second call for the
same collection at any `t1` with `t1 - t0 < TTL` returns the cached catalog
with zero fetch calls and an unchanged cache; a call whose entry is stale
(`now - lastFetch >= TTL`) takes the refresh path and issues fetch calls
again; and with TTL = 0 every call (on a forward-moving clock) issues fetch
calls — no cached entry is ever considered valid. -/
theorem schema_cache_ttl :
    (∀ (env0 env1 : FetchEnv) (cache : SchemaCache) (t0 t1 : Int) (col : String)
        (uk : String) (flds : List SolrField),
      0 < cache.ttl →
      (alGet cache.byCol col = none
        ∨ ¬ t0 - ((alGet cache.lastFetch col).getD 0) < cache.ttl) →
      env0.uniqueKeyFetch = .ok uk → env0.fieldsFetch = .ok flds →
      t1 - t0 < cache.ttl →
      (GetFieldCatalog env0 cache t0 col).fetchCalls = 3
      ∧ GetFieldCatalog env1 (GetFieldCatalog env0 cache t0 col).cache t1 col
          = ⟨(GetFieldCatalog env0 cache t0 col).result,
             (GetFieldCatalog env0 cache t0 col).cache, 0⟩)
    ∧ (∀ (env : FetchEnv) (cache : SchemaCache) (now : Int) (col : String) (fc : FieldCatalog),
      alGet cache.byCol col = some fc →
      ¬ now - ((alGet cache.lastFetch col).getD 0) < cache.ttl →
      GetFieldCatalog env cache now col = fetchCatalog env cache now col
      ∧ 1 ≤ (GetFieldCatalog env cache now col).fetchCalls)
    ∧ (∀ (env : FetchEnv) (cache : SchemaCache) (now : Int) (col : String),
      cache.ttl = 0 →
      (alGet cache.lastFetch col).getD 0 ≤ now →
      GetFieldCatalog env cache now col = fetchCatalog env cache now col
      ∧ 1 ≤ (GetFieldCatalog env cache now col).fetchCalls) := by
  refine ⟨?_, ?_, ?_⟩
  · intro env0 env1 cache t0 t1 col uk flds _ hmiss huk hfl ht1
    have hcall : GetFieldCatalog env0 cache t0 col
        = ⟨.ok (buildCatalog uk flds (mdOf env0)),
           { cache with byCol := alSet cache.byCol col (buildCatalog uk flds (mdOf env0)),
                        lastFetch := alSet cache.lastFetch col t0 }, 3⟩ := by
      rw [getFieldCatalog_miss env0 cache t0 col hmiss,
        fetchCatalog_ok env0 cache t0 col uk flds huk hfl]
    refine ⟨by rw [hcall], ?_⟩
    rw [hcall]
    exact getFieldCatalog_hit env1 _ t1 col _ (alGet_alSet_same _ _ _)
      (by rw [alGet_alSet_same]; exact ht1)
  · intro env cache now col fc hc ht
    have h := getFieldCatalog_miss env cache now col (Or.inr ht)
    exact ⟨h, by rw [h]; exact fetchCatalog_calls_pos env cache now col⟩
  · intro env cache now col h0 hmono
    have hstale : ¬ now - ((alGet cache.lastFetch col).getD 0) < cache.ttl := by
      rw [h0]; omega
    have h := getFieldCatalog_miss env cache now col (Or.inr hstale)
    exact ⟨h, by rw [h]; exact fetchCatalog_calls_pos env cache now col⟩

/-- The fetch oracle of the witnesses: unique key and fields decode, the
metadata document fails. -/
def envW : FetchEnv :=
  { uniqueKeyFetch := .ok "id",
    fieldsFetch := .ok
      [{ name := "title_txt", ftype := "text_general" },
       { name := "price_i", ftype := "pint" }],
    metadataFetch := .error "HTTP status 404" }

/-- An empty schema cache with a 10-tick TTL. -/
def cacheW : SchemaCache := { lastFetch := [], ttl := 10, byCol := [] }

/-- The field list served by `envW`. -/
def fldsW : List SolrField :=
  [{ name := "title_txt", ftype := "text_general" },
   { name := "price_i", ftype := "pint" }]

/-- A one-entry schema cache whose TTL is zero. -/
def cacheTtl0 : SchemaCache :=
  { lastFetch := [("tech", 2)], ttl := 0, byCol := [("tech", buildCatalog "id" [] none)] }

/-- Witness for the cache/TTL behavior: a fetch at t=2 followed by a call
at t=9 (within TTL) returns the cached catalog without fetching; a stale
entry at t=30 refreshes; with TTL 0 the same state refreshes immediately. -/
theorem schema_cache_ttl_witness :
    ((GetFieldCatalog envW cacheW 2 "tech").fetchCalls = 3
      ∧ GetFieldCatalog envW (GetFieldCatalog envW cacheW 2 "tech").cache 9 "tech"
          = ⟨(GetFieldCatalog envW cacheW 2 "tech").result,
             (GetFieldCatalog envW cacheW 2 "tech").cache, 0⟩)
    ∧ 1 ≤ (GetFieldCatalog envW (GetFieldCatalog envW cacheW 2 "tech").cache 30 "tech").fetchCalls
    ∧ 1 ≤ (GetFieldCatalog envW cacheTtl0 2 "tech").fetchCalls :=
  ⟨schema_cache_ttl.1 envW envW cacheW 2 9 "tech" "id" fldsW
      (by decide) (Or.inl rfl) rfl rfl (by decide),
   (schema_cache_ttl.2.1 envW (GetFieldCatalog envW cacheW 2 "tech").cache 30 "tech"
      (buildCatalog "id" fldsW (mdOf envW)) (by rfl) (by decide)).2,
   (schema_cache_ttl.2.2 envW cacheTtl0 2 "tech" rfl (by decide)).2⟩

/-- C5: on the refresh path, a failed unique-key fetch aborts the call with
the unique-key error and a byte-identical cache (one fetch issued); a
failed field-list fetch aborts with the field-list error and a
byte-identical cache (two fetches issued); a failed metadata fetch is
tolerated — the catalog is still assembled with metadata absent, and it is
cached together with the current instant. -/
theorem schema_fetch_failures :
    (∀ (env : FetchEnv) (cache : SchemaCache) (now : Int) (col : String) (e : String),
      (alGet cache.byCol col = none
        ∨ ¬ now - ((alGet cache.lastFetch col).getD 0) < cache.ttl) →
      env.uniqueKeyFetch = .error e →
      GetFieldCatalog env cache now col
        = ⟨.error ("failed to get uniqueKey from Solr: " ++ e), cache, 1⟩)
    ∧ (∀ (env : FetchEnv) (cache : SchemaCache) (now : Int) (col : String)
        (uk : String) (e : String),
      (alGet cache.byCol col = none
        ∨ ¬ now - ((alGet cache.lastFetch col).getD 0) < cache.ttl) →
      env.uniqueKeyFetch = .ok uk → env.fieldsFetch = .error e →
      GetFieldCatalog env cache now col
        = ⟨.error ("failed to get fields from Solr: " ++ e), cache, 2⟩)
    ∧ (∀ (env : FetchEnv) (cache : SchemaCache) (now : Int) (col : String)
        (uk : String) (flds : List SolrField) (e : String),
      (alGet cache.byCol col = none
        ∨ ¬ now - ((alGet cache.lastFetch col).getD 0) < cache.ttl) →
      env.uniqueKeyFetch = .ok uk → env.fieldsFetch = .ok flds →
      env.metadataFetch = .error e →
      GetFieldCatalog env cache now col
        = ⟨.ok (buildCatalog uk flds none),
           { cache with byCol := alSet cache.byCol col (buildCatalog uk flds none),
                        lastFetch := alSet cache.lastFetch col now }, 3⟩
      ∧ (buildCatalog uk flds none).metadata = none) := by
  refine ⟨?_, ?_, ?_⟩
  · intro env cache now col e hmiss huk
    rw [getFieldCatalog_miss env cache now col hmiss]
    unfold fetchCatalog
    rw [huk]
  · intro env cache now col uk e hmiss huk hfl
    rw [getFieldCatalog_miss env cache now col hmiss]
    unfold fetchCatalog
    rw [huk, hfl]
  · intro env cache now col uk flds e hmiss huk hfl hmd
    have hmdOf : mdOf env = none := by unfold mdOf; rw [hmd]
    refine ⟨?_, rfl⟩
    rw [getFieldCatalog_miss env cache now col hmiss,
      fetchCatalog_ok env cache now col uk flds huk hfl, hmdOf]

/-- A fetch oracle whose unique-key call fails. -/
def envUkErr : FetchEnv :=
  { uniqueKeyFetch := .error "HTTP status 500",
    fieldsFetch := .ok fldsW,
    metadataFetch := .ok [] }

/-- A fetch oracle whose field-list call fails. -/
def envFldErr : FetchEnv :=
  { uniqueKeyFetch := .ok "id",
    fieldsFetch := .error "JSON decode error",
    metadataFetch := .ok [] }

/-- Witness for the failure semantics at a concrete cache state. -/
theorem schema_fetch_failures_witness :
    GetFieldCatalog envUkErr cacheW 2 "tech"
      = ⟨.error ("failed to get uniqueKey from Solr: " ++ "HTTP status 500"), cacheW, 1⟩
    ∧ GetFieldCatalog envFldErr cacheW 2 "tech"
      = ⟨.error ("failed to get fields from Solr: " ++ "JSON decode error"), cacheW, 2⟩
    ∧ GetFieldCatalog envW cacheW 2 "tech"
      = ⟨.ok (buildCatalog "id" fldsW none),
         { cacheW with byCol := alSet cacheW.byCol "tech" (buildCatalog "id" fldsW none),
                       lastFetch := alSet cacheW.lastFetch "tech" 2 }, 3⟩ :=
  ⟨schema_fetch_failures.1 envUkErr cacheW 2 "tech" "HTTP status 500" (Or.inl rfl) rfl,
   schema_fetch_failures.2.1 envFldErr cacheW 2 "tech" "id" "JSON decode error" (Or.inl rfl) rfl rfl,
   (schema_fetch_failures.2.2 envW cacheW 2 "tech" "id" fldsW "HTTP status 404"
      (Or.inl rfl) rfl rfl rfl).1⟩

/-- Membership in a classification bucket: exactly the names of fields of
that class. -/
theorem mem_namesOfClass (c : FClass) (fs : List SolrField) (n : String) :
    n ∈ namesOfClass c fs ↔ ∃ f, f ∈ fs ∧ classOf f.ftype = some c ∧ f.name = n := by
  simp only [namesOfClass, List.mem_map, List.mem_filter, decide_eq_true_eq]
  constructor
  · rintro ⟨f, ⟨hf, hc⟩, hn⟩
    exact ⟨f, hf, hc, hn⟩
  · rintro ⟨f, hf, hc, hn⟩
    exact ⟨f, ⟨hf, hc⟩, hn⟩

/-- With unique field names, two fields sharing a name are the same field. -/
theorem eq_of_name_eq_of_nodup (fs : List SolrField)
    (hnd : (fs.map SolrField.name).Nodup) {f g : SolrField}
    (hf : f ∈ fs) (hg : g ∈ fs) (h : f.name = g.name) : f = g :=
  List.inj_on_of_nodup_map hnd hf hg h

/-- C9: with unique field names, the four classification arrays are
pairwise disjoint (each field lands in at most one, decided purely by the
substring tests of `classOf` with their stated precedence), every name in a
classification array occurs in the full field list exactly once, and a
field whose declared type matches no rule appears in no classification
array yet remains in the full list. -/
theorem classification_spec (fs : List SolrField) (hnd : (fs.map SolrField.name).Nodup) :
    (∀ c1 c2 n, c1 ≠ c2 → n ∈ namesOfClass c1 fs → n ∉ namesOfClass c2 fs)
    ∧ (∀ c n, n ∈ namesOfClass c fs → (fs.map SolrField.name).count n = 1)
    ∧ (∀ f ∈ fs, classOf f.ftype = none →
        (∀ c, f.name ∉ namesOfClass c fs) ∧ f.name ∈ fs.map SolrField.name) := by
  refine ⟨?_, ?_, ?_⟩
  · intro c1 c2 n hne h1 h2
    obtain ⟨f, hf, hcf, hnf⟩ := (mem_namesOfClass c1 fs n).mp h1
    obtain ⟨g, hg, hcg, hng⟩ := (mem_namesOfClass c2 fs n).mp h2
    have : f = g := eq_of_name_eq_of_nodup fs hnd hf hg (hnf.trans hng.symm)
    rw [this, hcg] at hcf
    exact hne (Option.some.inj hcf).symm
  · intro c n h
    obtain ⟨f, hf, _, hnf⟩ := (mem_namesOfClass c fs n).mp h
    exact List.count_eq_one_of_mem hnd (hnf ▸ List.mem_map_of_mem SolrField.name hf)
  · intro f hf hnone
    refine ⟨?_, List.mem_map_of_mem SolrField.name hf⟩
    intro c hmem
    obtain ⟨g, hg, hcg, hng⟩ := (mem_namesOfClass c fs f.name).mp hmem
    have : g = f := eq_of_name_eq_of_nodup fs hnd hg hf hng
    rw [this, hnone] at hcg
    cases hcg

/-- A field list with one field per classification rule plus one field
matching no rule. -/
def fldsC9 : List SolrField :=
  [{ name := "title_txt", ftype := "text_general" },
   { name := "price_i", ftype := "pint" },
   { name := "release_dt", ftype := "pdate" },
   { name := "in_stock_b", ftype := "boolean" },
   { name := "loc", ftype := "location" }]

/-- Witness for the classification invariants at a concrete field list:
the text bucket holds exactly the text field, it is absent from the
numeric bucket, its count in the full list is one, and the unmatched
`location` field is in no bucket but still in the full list. -/
theorem classification_spec_witness :
    "title_txt" ∉ namesOfClass .numeric fldsC9
    ∧ (fldsC9.map SolrField.name).count "title_txt" = 1
    ∧ "loc" ∉ namesOfClass .text fldsC9
    ∧ "loc" ∈ fldsC9.map SolrField.name :=
  ⟨(classification_spec fldsC9 (by decide)).1 .text .numeric "title_txt" (by decide) (by decide),
   (classification_spec fldsC9 (by decide)).2.1 .text "title_txt" (by decide),
   ((classification_spec fldsC9 (by decide)).2.2
      { name := "loc", ftype := "location" } (by decide) (by decide)).1 .text,
   ((classification_spec fldsC9 (by decide)).2.2
      { name := "loc", ftype := "location" } (by decide) (by decide)).2⟩

/-- The out and seen lists of the prioritization inner loop stay equal. -/
theorem prioMatchOne_fst_eq_snd (p : String) (ns : List String)
    (st : List String × List String) (h : st.1 = st.2) :
    (prioMatchOne p ns st).1 = (prioMatchOne p ns st).2 := by
  induction ns generalizing st with
  | nil => exact h
  | cons n rest ih =>
    by_cases hc : n ∉ st.2 ∧ strContains (strLower n) p = true
    · simp only [prioMatchOne, if_pos hc]
      exact ih _ (by rw [h])
    · simp only [prioMatchOne, if_neg hc]
      exact ih _ h

/-- Every element the prioritization inner loop emits comes from the
incoming state or from the name list. -/
theorem prioMatchOne_subset (p : String) (ns : List String)
    (st : List String × List String) (x : String)
    (h : x ∈ (prioMatchOne p ns st).1) : x ∈ st.1 ∨ x ∈ ns := by
  induction ns generalizing st with
  | nil => exact Or.inl h
  | cons n rest ih =>
    by_cases hc : n ∉ st.2 ∧ strContains (strLower n) p = true
    · simp only [prioMatchOne, if_pos hc] at h
      rcases ih _ h with hx | hx
      · rcases List.mem_append.mp hx with hx | hx
        · exact Or.inl hx
        · exact Or.inr (by simp at hx; simp [hx])
      · exact Or.inr (List.mem_cons_of_mem n hx)
    · simp only [prioMatchOne, if_neg hc] at h
      rcases ih _ h with hx | hx
      · exact Or.inl hx
      · exact Or.inr (List.mem_cons_of_mem n hx)

/-- The out and seen lists of the prioritization outer loop stay equal. -/
theorem prioOuter_fst_eq_snd (names : List String) (ps : List String)
    (st : List String × List String) (h : st.1 = st.2) :
    (prioOuter names ps st).1 = (prioOuter names ps st).2 := by
  induction ps generalizing st with
  | nil => exact h
  | cons p rest ih =>
    exact ih _ (prioMatchOne_fst_eq_snd p names st h)

/-- Every element the prioritization outer loop emits comes from the
incoming state or from the name list. -/
theorem prioOuter_subset (names : List String) (ps : List String)
    (st : List String × List String) (x : String)
    (h : x ∈ (prioOuter names ps st).1) : x ∈ st.1 ∨ x ∈ names := by
  induction ps generalizing st with
  | nil => exact Or.inl h
  | cons p rest ih =>
    rcases ih _ h with hx | hx
    · exact prioMatchOne_subset p names st x hx
    · exact Or.inr hx

/-- Every element of `Prioritize names prefs` is one of the names. -/
theorem Prioritize_subset (names prefs : List String) (x : String)
    (h : x ∈ Prioritize names prefs) : x ∈ names := by
  unfold Prioritize at h
  split at h
  · cases h
  · rcases List.mem_append.mp h with hx | hx
    · rcases prioOuter_subset names prefs ([], []) x hx with hx | hx
      · cases hx
      · exact hx
    · exact List.mem_of_mem_filter hx

/-- Prioritizing a non-empty name list yields a non-empty list: matched
names are emitted by the first pass and every unmatched name by the second. -/
theorem Prioritize_ne_nil (names prefs : List String) (h : names ≠ []) :
    Prioritize names prefs ≠ [] := by
  unfold Prioritize
  rw [if_neg (by simpa [List.isEmpty_iff] using h)]
  show (prioOuter names prefs ([], [])).1
      ++ names.filter (fun n => decide (n ∉ (prioOuter names prefs ([], [])).2)) ≠ []
  cases hst : (prioOuter names prefs ([], [])).1 with
  | cons a t => simp
  | nil =>
    have hsnd : (prioOuter names prefs ([], [])).2 = [] :=
      (prioOuter_fst_eq_snd names prefs ([], []) rfl).symm.trans hst
    have hfil : names.filter (fun n => decide (n ∉ (prioOuter names prefs ([], [])).2)) = names := by
      rw [hsnd]
      exact List.filter_eq_self.mpr (fun a _ => by simp)
    rw [hfil]
    simpa using h

/-- Zeta-reduced form of `priorOf`. -/
theorem priorOf_def (texts : List String) :
    priorOf texts = if (Prioritize texts guessPrefs).length = 0 ∧ 0 < texts.length
      then texts else Prioritize texts guessPrefs := rfl

/-- The prioritized text list is non-empty whenever there are text fields. -/
theorem priorOf_ne_nil (texts : List String) (h : texts ≠ []) : priorOf texts ≠ [] := by
  rw [priorOf_def]
  split
  · exact h
  · exact Prioritize_ne_nil texts guessPrefs h

/-- Every element of the prioritized text list is a text field name. -/
theorem priorOf_subset (texts : List String) (x : String) (h : x ∈ priorOf texts) :
    x ∈ texts := by
  rw [priorOf_def] at h
  split at h
  · exact h
  · exact Prioritize_subset texts guessPrefs x h

/-- Zeta-reduced form of `HeadN`. -/
theorem HeadN_def {α : Type} (s : List α) (n : Int) :
    HeadN s n = if (s.length : Int) ≤ (if n < 0 then 0 else n) then s
      else s.take (if n < 0 then 0 else n).toNat := rfl

/-- Applying `HeadN` with bound 3 keeps at most three elements. -/
theorem HeadN_three_length {α : Type} (s : List α) : (HeadN s 3).length ≤ 3 := by
  rw [HeadN_def, if_neg (by norm_num : ¬ (3 : Int) < 0)]
  split
  · next hle => exact_mod_cast hle
  · simp [List.length_take]

/-- Applying `HeadN` with bound 3 keeps the head of a non-empty list. -/
theorem HeadN_three_head {α : Type} (a : α) (t : List α) :
    (HeadN (a :: t) 3).head? = some a := by
  rw [HeadN_def, if_neg (by norm_num : ¬ (3 : Int) < 0)]
  split
  · rfl
  · rfl

/-- C10 (amended): for every catalog with at least one text-classified
field, all of whose text field names are non-empty, `GuessFields` returns a
non-empty default free-text field that is one of the text fields and equals
the first element of the returned top-text-fields list, and that list has
at most three entries. -/
theorem guess_default_df (fb : FieldBuckets) (hne : fb.texts ≠ [])
    (hnames : ∀ n ∈ fb.texts, n ≠ "") :
    (GuessFields fb).defaultDF ≠ ""
    ∧ (GuessFields fb).defaultDF ∈ fb.texts
    ∧ (GuessFields fb).textTopN.head? = some ((GuessFields fb).defaultDF)
    ∧ (GuessFields fb).textTopN.length ≤ 3 := by
  have hp : priorOf fb.texts ≠ [] := priorOf_ne_nil _ hne
  obtain ⟨y, ys, hys⟩ := List.exists_cons_of_ne_nil hp
  have hdf : (GuessFields fb).defaultDF = y := by
    show (match priorOf fb.texts with | [] => "" | x :: _ => x) = y
    rw [hys]
  have hmem : y ∈ fb.texts := priorOf_subset _ y (hys ▸ List.mem_cons_self y ys)
  refine ⟨?_, ?_, ?_, ?_⟩
  · rw [hdf]; exact hnames y hmem
  · rw [hdf]; exact hmem
  · show (HeadN (priorOf fb.texts) 3).head? = _
    rw [hdf, hys]
    exact HeadN_three_head y ys
  · show (HeadN (priorOf fb.texts) 3).length ≤ 3
    exact HeadN_three_length _

/-- The buckets of the `techproducts` scenario. -/
def fbW : FieldBuckets :=
  { texts := ["brand_s", "title_txt"], numbers := ["price_i"],
    dates := ["release_dt"], bools := [] }

/-- Witness for the default free-text field at a concrete bucket set. -/
theorem guess_default_df_witness :
    (GuessFields fbW).defaultDF ≠ ""
    ∧ (GuessFields fbW).defaultDF ∈ fbW.texts
    ∧ (GuessFields fbW).textTopN.head? = some ((GuessFields fbW).defaultDF)
    ∧ (GuessFields fbW).textTopN.length ≤ 3 :=
  guess_default_df fbW (by decide) (by decide)

/-- Counterexample to C10 as stated: a catalog whose single text-classified
field has the empty string as its name (nothing in the code forbids this)
yields an empty default free-text field, although a text-classified field
exists — the returned default is not non-empty. -/
theorem guess_default_df_counterexample :
    (GuessFields { texts := [""], numbers := [], dates := [], bools := [] }).defaultDF = ""
    ∧ ([""] : List String) ≠ [] :=
  ⟨by decide, by decide⟩
